import Mathlib

/-!
Verification of the Meebo robot control system (streaming response protocol,
incremental parser, action validation and tool-call dispatch) against its
natural-language specification.  The Python modules
src/brain/llm_client.py, src/main.py and src/tools/robot_tools.py are
shallowly embedded below: Python strings are Lean strings, Python dicts with
statically known keys become structures, dicts used as string-keyed maps
become ordered association lists, and generator functions become pure
functions returning the list of yielded elements.  All string operations are
implemented structurally over character lists so that every definition
reduces inside the kernel.
-/

namespace Meebo

/-! ## Python string primitives

Structural models of the Python string operations used by the source:
str.split with maxsplit 1, str.split, str.strip, substring containment,
str.endswith, and the slice between the first open and the last close
parenthesis. -/

/-- Character class of Python str.strip with no arguments, restricted to the
ASCII whitespace characters (space, tab, newline, carriage return, vertical
tab, form feed). -/
def isPyWs (c : Char) : Bool :=
  c = ' ' || c = '\t' || c = '\n' || c = '\r' || c = '\x0b' || c = '\x0c'

/-- Models Python str.strip on a character list. -/
def trimChars (cs : List Char) : List Char :=
  ((cs.dropWhile isPyWs).reverse.dropWhile isPyWs).reverse

/-- Models Python str.strip. -/
def pyStrip (s : String) : String :=
  String.mk (trimChars s.data)

/-- Finds the first occurrence of the separator in the character list and
returns the text before it and the text after it. -/
def splitFirstAux (sep : List Char) (acc : List Char) :
    List Char → Option (List Char × List Char)
  | [] => Option.none
  | c :: rest =>
    if sep.isPrefixOf (c :: rest) then
      some (acc.reverse, (c :: rest).drop sep.length)
    else
      splitFirstAux sep (c :: acc) rest

/-- Models Python s.split(sep, 1): the text before the first occurrence of
the separator, and the remainder when the separator occurs at all. -/
def pySplit1 (s sep : String) : String × Option String :=
  match splitFirstAux sep.data [] s.data with
  | some (a, b) => (String.mk a, some (String.mk b))
  | Option.none => (s, Option.none)

/-- Models the Python substring test sep in s. -/
def pyContains (s sep : String) : Bool :=
  (splitFirstAux sep.data [] s.data).isSome

/-- Splits repeatedly on the separator; the fuel bounds the number of
splits and is instantiated with the length of the input. -/
def splitAllAux (sep : List Char) : Nat → List Char → List (List Char)
  | 0, cs => [cs]
  | Nat.succ fuel, cs =>
    match splitFirstAux sep [] cs with
    | some (a, b) => a :: splitAllAux sep fuel b
    | Option.none => [cs]

/-- Models Python s.split(sep) with no maxsplit: all parts, empty parts
kept. -/
def pySplitAll (s sep : String) : List String :=
  (splitAllAux sep.data (s.data.length + 1) s.data).map String.mk

/-- Models Python s.endswith(suffix). -/
def pyEndsWith (s suffix : String) : Bool :=
  suffix.data.reverse.isPrefixOf s.data.reverse

/-- Joins parts with a single separator character between them. -/
def joinSep (sep : Char) : List (List Char) → List Char
  | [] => []
  | [x] => x
  | x :: xs => x ++ sep :: joinSep sep xs

/-- Models the Python slice line[line.find("(")+1:line.rfind(")")] applied
to the text after the first open parenthesis.  The source evaluates the
slice only on lines that end with a close parenthesis, where the last close
parenthesis of the whole line lies inside this suffix, so dropping the text
from the last close parenthesis of the suffix yields exactly the slice. -/
def beforeLastClose (s : String) : String :=
  String.mk (joinSep ')' (List.dropLast (splitAllAux [')'] (s.data.length + 1) s.data)))

/-! ## Scalar value model

Scalar values produced by the parameter decoding step of the parser.  The
source calls the Python standard library json.loads on each parameter token
and falls back to the raw string when decoding fails. -/

/-- Python scalar value as produced by json.loads on a parameter token or by
the raw-string fallback. -/
inductive PyVal where
  | pynull
  | pybool (b : Bool)
  | pyint (n : Int)
  | pystr (s : String)
deriving DecidableEq, Repr

/-- JSON whitespace accepted around a JSON document by json.loads. -/
def isJsonWs (c : Char) : Bool :=
  c = ' ' || c = '\t' || c = '\n' || c = '\r'

/-- Strips JSON whitespace from both ends of a character list. -/
def stripJsonWs (cs : List Char) : List Char :=
  ((cs.dropWhile isJsonWs).reverse.dropWhile isJsonWs).reverse

/-- Digit sequence of a JSON integer: a single zero, or a nonzero digit
followed by digits. -/
def isJsonUInt : List Char → Bool
  | [] => false
  | ['0'] => true
  | c :: rest => ('1' ≤ c && c ≤ '9') && rest.all Char.isDigit

/-- Numeric value of a digit sequence. -/
def digitsToNat (cs : List Char) : Nat :=
  cs.foldl (fun n c => n * 10 + (c.toNat - '0'.toNat)) 0

/-- True when the list contains neither a double quote nor a backslash. -/
def plainStringChars (cs : List Char) : Bool :=
  cs.all (fun c => !(c = '"' || c = '\\'))

/-- Modelled from the Python standard library json.loads as applied to the
scalar parameter tokens of the action grammar: JSON null, true, false,
integers, and double-quoted strings without escape sequences decode;
fractional or exponent number forms, escaped strings, arrays and objects
are modelled as decode failures (the decode-failure fallback keeps the raw
token, and no analysed input exercises those forms as complete documents). -/
def pyJsonLoads (s : String) : Option PyVal :=
  let t := stripJsonWs s.data
  if t = "null".data then some PyVal.pynull
  else if t = "true".data then some (PyVal.pybool true)
  else if t = "false".data then some (PyVal.pybool false)
  else
    match t with
    | '"' :: rest =>
      match rest.getLast? with
      | some '"' =>
        let inner := rest.dropLast
        if plainStringChars inner then some (PyVal.pystr (String.mk inner))
        else Option.none
      | _ => Option.none
    | '-' :: rest =>
      if isJsonUInt rest then some (PyVal.pyint (-(digitsToNat rest : Int)))
      else Option.none
    | cs =>
      if isJsonUInt cs then some (PyVal.pyint (digitsToNat cs))
      else Option.none

/-- Parameter decoding of one right-hand side: json.loads on success, the
raw string verbatim when decoding fails. -/
def decodeParamValue (v : String) : PyVal :=
  match pyJsonLoads v with
  | some w => w
  | Option.none => PyVal.pystr v

/-! ## Capability registry

Model of the tool definitions of src/tools/robot_tools.py and of the
normalisation performed by LLMClient._prepare_tools.  A tool definition is
one entry of a tools list: a dict carrying both a type and a function key
(the full wire format), a dict lacking one of those keys but carrying a name
and a description (the simple format, converted by _prepare_tools), or
anything else (skipped with a warning). -/

/-- One parameter entry of a tool schema: name, JSON type, description and
optional bounds. -/
structure ParamSpec where
  name : String
  ptype : String
  description : String
  minimum : Option Int := Option.none
  maximum : Option Int := Option.none
deriving DecidableEq, Repr

/-- The parameters object of a tool function: its JSON type tag, its
property list in declaration order, and the required-parameter names (absent
required lists are modelled as the empty list). -/
structure ParamsSchema where
  stype : String
  properties : List ParamSpec
  requiredParams : List String
deriving DecidableEq, Repr

/-- The function object of a full tool definition. -/
structure ToolFunction where
  name : String
  description : String
  parameters : Option ParamsSchema
deriving DecidableEq, Repr

/-- One entry of a tools list, classified by the branch _prepare_tools takes
on it. -/
inductive ToolDef where
  | full (fn : ToolFunction)
  | simple (name description : String) (parameters : Option ParamsSchema)
  | invalid (raw : String)
deriving DecidableEq, Repr

/-- Modelled from LLMClient._prepare_tools: full entries are kept as they
are, simple entries are wrapped into the full format with an empty-object
default parameters schema, anything else is skipped. -/
def prepareTools : List ToolDef → List ToolDef
  | [] => []
  | ToolDef.full fn :: ts => ToolDef.full fn :: prepareTools ts
  | ToolDef.simple n d p :: ts =>
      ToolDef.full ⟨n, d, some (p.getD ⟨"object", [], []⟩)⟩ :: prepareTools ts
  | ToolDef.invalid _ :: ts => prepareTools ts

/-- Name extracted from one prepared tool entry by the loop of
LLMClient._is_valid_tool: the function name of a full entry, the top-level
name of a simple entry, nothing for other entries. -/
def toolFnName : ToolDef → Option String
  | ToolDef.full fn => some fn.name
  | ToolDef.simple n _ _ => some n
  | ToolDef.invalid _ => Option.none

/-- Modelled from LLMClient._is_valid_tool: the list of available tool names
computed from the prepared tools. -/
def availableToolNames (tools : List ToolDef) : List String :=
  (prepareTools tools).filterMap toolFnName

/-- Modelled from LLMClient._is_valid_tool: membership of the tool name in
the available names. -/
def isValidTool (tools : List ToolDef) (tool_name : String) : Bool :=
  (availableToolNames tools).contains tool_name

/-- Modelled from the expression tools or self.tools of
LLMClient.process_streaming and LLMClient.process: a caller-supplied list is
used when it is truthy (present and nonempty), the stored list otherwise. -/
def chooseTools (arg : Option (List ToolDef)) (own : List ToolDef) : List ToolDef :=
  match arg with
  | some [] => own
  | some (t :: ts) => t :: ts
  | Option.none => own

/-- The value assigned to self.tools by LLMClient.process_streaming and
LLMClient.process on every call: the prepared form of the chosen tool
list. -/
def updatedTools (arg : Option (List ToolDef)) (own : List ToolDef) : List ToolDef :=
  prepareTools (chooseTools arg own)

/-- The speed parameter shared by the movement tools of ROBOT_TOOLS. -/
def speedParam : ParamSpec :=
  { name := "speed", ptype := "integer",
    description := "Speed from 0-100 with 100 being the fastest",
    minimum := some 0, maximum := some 100 }

/-- The move_forward entry of ROBOT_TOOLS. -/
def moveForwardTool : ToolDef :=
  ToolDef.full
    { name := "move_forward",
      description := "Move the robot forward at the specified speed",
      parameters := some { stype := "object", properties := [speedParam],
                           requiredParams := ["speed"] } }

/-- The stop entry of ROBOT_TOOLS. -/
def stopTool : ToolDef :=
  ToolDef.full
    { name := "stop",
      description := "Stop all robot movement",
      parameters := some { stype := "object", properties := [], requiredParams := [] } }

/-- Modelled from ROBOT_TOOLS in src/tools/robot_tools.py: the ten tool
definitions registered at startup, in declaration order. -/
def robotTools : List ToolDef :=
  [ ToolDef.full
      { name := "get_motor_status",
        description := "Get the current status of the robot's motors",
        parameters := some { stype := "object", properties := [], requiredParams := [] } },
    ToolDef.full
      { name := "check_battery",
        description := "Check the robot's battery level",
        parameters := some { stype := "object", properties := [], requiredParams := [] } },
    moveForwardTool,
    ToolDef.full
      { name := "move_backward",
        description := "Move the robot backward at the specified speed",
        parameters := some { stype := "object", properties := [speedParam],
                             requiredParams := ["speed"] } },
    ToolDef.full
      { name := "turn_left",
        description := "Turn the robot left at the specified speed",
        parameters := some { stype := "object", properties := [speedParam],
                             requiredParams := ["speed"] } },
    ToolDef.full
      { name := "turn_right",
        description := "Turn the robot right at the specified speed",
        parameters := some { stype := "object", properties := [speedParam],
                             requiredParams := ["speed"] } },
    stopTool,
    ToolDef.full
      { name := "speak",
        description := "Have the robot speak the provided text",
        parameters := some
          { stype := "object",
            properties :=
              [ { name := "text", ptype := "string",
                  description := "The text for the robot to say" },
                { name := "wait", ptype := "boolean",
                  description := "Whether to wait for speech to complete before continuing (default: false)" } ],
            requiredParams := ["text"] } },
    ToolDef.full
      { name := "listen",
        description := "Listen for a voice command with a timeout",
        parameters := some
          { stype := "object",
            properties :=
              [ { name := "timeout", ptype := "number",
                  description := "Number of seconds to listen before timing out",
                  minimum := some 1, maximum := some 10 } ],
            requiredParams := [] } },
    ToolDef.full
      { name := "capture_image",
        description := "Capture an image from the robot's camera",
        parameters := some { stype := "object", properties := [], requiredParams := [] } } ]

/-- A registry containing only the move_forward and stop tools, used by the
validation scenario of the specification. -/
def registryMoveStop : List ToolDef := [moveForwardTool, stopTool]

/-- A caller-supplied tool list in the simple name-and-description format,
distinct from every entry of ROBOT_TOOLS. -/
def danceTool : ToolDef := ToolDef.simple "dance" "Spin in a circle" Option.none

/-! ## Response parser

Model of LLMClient._parse_llm_response.  The whole accumulated response
text is split on the first THOUGHTS: marker, the part before it is searched
for an ACTIONS: marker, and every nonempty line after that marker is
attempted as a tool call of the shape name(k1=v1, k2=v2). -/

/-- A parsed action: tool name and parameter dict in insertion order. -/
structure Action where
  tool : String
  params : List (String × PyVal)
deriving DecidableEq, Repr

/-- The parse result: thoughts text and action list. -/
structure ParsedTurn where
  thoughts : String
  actions : List Action
deriving DecidableEq, Repr

/-- Insertion into a Python dict modelled as an ordered association list:
an existing key is overwritten in place, a new key is appended. -/
def dictInsert (d : List (String × PyVal)) (k : String) (v : PyVal) :
    List (String × PyVal) :=
  if d.any (fun p => p.1 = k) then
    d.map (fun p => if p.1 = k then (k, v) else p)
  else d ++ [(k, v)]

/-- Processes one comma-separated parameter token: the token is stripped,
tokens without an equals sign are ignored, otherwise the token is split on
the first equals sign, the key is stripped and the value is decoded. -/
def parseOneParam (acc : List (String × PyVal)) (tok : String) :
    List (String × PyVal) :=
  let p := pyStrip tok
  if p.data.contains '=' then
    match pySplit1 p "=" with
    | (key, some v) => dictInsert acc (pyStrip key) (decodeParamValue v)
    | (_, Option.none) => acc
  else acc

/-- Parses the text between the parentheses of a candidate action line into
a parameter dict; an empty parameter text yields the empty dict. -/
def parseParams (params_str : String) : List (String × PyVal) :=
  if params_str = "" then []
  else (pySplitAll params_str ",").foldl parseOneParam []

/-- Processes one line of the actions block: the line is stripped, empty
lines and lines that do not contain an open parenthesis and end with a close
parenthesis are dropped, the text before the first open parenthesis is the
tool name, names absent from the registry are dropped, and the text between
the first open and the last close parenthesis is parsed as parameters. -/
def parseLine (tools : List ToolDef) (rawLine : String) : Option Action :=
  let line := pyStrip rawLine
  if line = "" then Option.none
  else if line.data.contains '(' && pyEndsWith line ")" then
    match pySplit1 line "(" with
    | (before, some afterOpen) =>
      let tool_name := pyStrip before
      if isValidTool tools tool_name then
        some { tool := tool_name, params := parseParams (pyStrip (beforeLastClose afterOpen)) }
      else Option.none
    | (_, Option.none) => Option.none
  else Option.none

/-- The loop over the lines of the actions block: every line that parses to
an action is appended to the action list, in order. -/
def parseActionsBlock (tools : List ToolDef) (actions_text : String) : List Action :=
  (pySplitAll actions_text "\n").foldl
    (fun acc l =>
      match parseLine tools l with
      | some a => acc ++ [a]
      | Option.none => acc) []

/-- Modelled from LLMClient._parse_llm_response: the response text is split
on the first THOUGHTS: marker; the stripped remainder is the thoughts text
(empty when the marker is absent); the stripped part before the marker is
searched for an ACTIONS: marker and, when present, every line after it is
attempted as a tool call.  The try-except of the source around this body is
unreachable in the model because every step is total. -/
def parseLLMResponse (tools : List ToolDef) (response_text : String) : ParsedTurn :=
  let secs := pySplit1 response_text "THOUGHTS:"
  let actions_text0 := pyStrip secs.1
  let thoughts_text :=
    match secs.2 with
    | some r => pyStrip r
    | Option.none => ""
  let actions :=
    if pyContains actions_text0 "ACTIONS:" then
      parseActionsBlock tools (pyStrip ((pySplit1 actions_text0 "ACTIONS:").2.getD ""))
    else []
  { thoughts := thoughts_text, actions := actions }

/-! ## Streaming protocol client

Model of LLMClient.process_streaming.  The generator is embedded as a pure
function from the server response to the list of yielded chunk results; each
yielded chunk is paired with the value of the owned conversation context at
the moment of the yield, so that the ordering between the context update and
the yield is part of the model. -/

/-- One well-formed streamed fragment after its JSON decoding: the optional
text delta, the optional continuation token, and the done flag (absent done
is modelled as false, matching chunk.get with a false default). -/
structure StreamFragment where
  response : Option String
  context : Option (List Int)
  done : Bool
deriving DecidableEq, Repr

/-- One line of the streamed response body: an empty line (skipped by the
truthiness test on the raw line), a line whose body fails JSON decoding
(skipped with a warning), or a decoded fragment. -/
inductive StreamLine where
  | emptyL
  | malformed (raw : String)
  | frag (f : StreamFragment)
deriving DecidableEq, Repr

/-- The chunk dict yielded per fragment by process_streaming: thoughts,
actions and the completion flag. -/
structure ChunkResult where
  thoughts : String
  actions : List Action
  complete : Bool
deriving DecidableEq, Repr

/-- The loop state of process_streaming: the accumulated raw buffer, the
owned conversation context, and the last parsed action list (tracked for
change logging). -/
structure StreamState where
  completeResponse : String
  context : List Int
  lastActions : List Action
deriving DecidableEq, Repr

/-- Processes one line of the streaming loop body: empty and malformed lines
yield nothing and leave the state unchanged; a fragment first replaces the
context when a token is present, then appends the text delta to the buffer,
reparses the whole buffer, and yields one chunk.  The third component is
true when the loop breaks (the done flag).  Each yielded chunk is paired
with the context value held at the moment of the yield. -/
def processLine (tools : List ToolDef) (st : StreamState) :
    StreamLine → StreamState × List (ChunkResult × List Int) × Bool
  | StreamLine.emptyL => (st, [], false)
  | StreamLine.malformed _ => (st, [], false)
  | StreamLine.frag f =>
    let ctx' :=
      match f.context with
      | some c => c
      | Option.none => st.context
    let resp' := st.completeResponse ++ (match f.response with
      | some r => r
      | Option.none => "")
    let parsed := parseLLMResponse tools resp'
    let last' := if parsed.actions = st.lastActions then st.lastActions else parsed.actions
    ({ completeResponse := resp', context := ctx', lastActions := last' },
     [({ thoughts := parsed.thoughts, actions := parsed.actions, complete := f.done }, ctx')],
     f.done)

/-- Result of running the streaming loop over a list of lines. -/
structure StreamRun where
  state : StreamState
  yields : List (ChunkResult × List Int)
  broke : Bool
deriving DecidableEq, Repr

/-- Runs the streaming loop over the body lines, stopping at the first
fragment whose done flag is set. -/
def processLines (tools : List ToolDef) (st : StreamState) :
    List StreamLine → StreamRun
  | [] => { state := st, yields := [], broke := false }
  | l :: ls =>
    match processLine tools st l with
    | (st', ys, brk) =>
      if brk then { state := st', yields := ys, broke := true }
      else
        let r := processLines tools st' ls
        { state := r.state, yields := ys ++ r.yields, broke := r.broke }

/-- The observable outcome of the single HTTP request issued per turn: a
success status with body lines, a non-success status, a transport failure at
request time, or a transport failure after some body lines were received. -/
inductive ServerResponse where
  | ok (lines : List StreamLine)
  | httpError (status : Nat)
  | transportError (msg : String)
  | midStreamError (lines : List StreamLine) (msg : String)
deriving DecidableEq, Repr

/-- Modelled from LLMClient.process_streaming: the list of yielded chunks
(each paired with the context at the yield) and the final context.  A
non-success status yields the single API error chunk; a transport failure
(requests.exceptions.RequestException, covering connection refusal, timeout
and mid-stream disconnect) reaches the except arm, which yields the single
request-failed chunk; a failure observed mid-iteration is preceded by the
chunks already yielded unless the loop had already broken on a done flag. -/
def processStreaming (tools : List ToolDef) (ctx0 : List Int) :
    ServerResponse → List (ChunkResult × List Int) × List Int
  | ServerResponse.ok lines =>
    let r := processLines tools { completeResponse := "", context := ctx0, lastActions := [] } lines
    (r.yields, r.state.context)
  | ServerResponse.httpError status =>
    ([({ thoughts := "Error: Error from LLM API: " ++ toString status,
         actions := [], complete := true }, ctx0)], ctx0)
  | ServerResponse.transportError msg =>
    ([({ thoughts := "Error: Request failed: " ++ msg,
         actions := [], complete := true }, ctx0)], ctx0)
  | ServerResponse.midStreamError lines msg =>
    let r := processLines tools { completeResponse := "", context := ctx0, lastActions := [] } lines
    if r.broke then (r.yields, r.state.context)
    else
      (r.yields ++ [({ thoughts := "Error: Request failed: " ++ msg,
                       actions := [], complete := true }, r.state.context)],
       r.state.context)

/-! ## Tool-call dispatch (src/main.py)

Model of MeeboRobot._process_streaming, its streaming_callback closure,
_parse_function_calls_from_text and _handle_tool_calls.  The callback
receives each yielded chunk as a string-keyed dict, so the chunks are
converted to an association-list dict form that supports the membership
tests the callback performs. -/

/-- The function object of a native tool call. -/
structure FunctionSpec where
  name : String
  arguments : Option String
deriving DecidableEq, Repr

/-- One native tool-call object: optional id and optional function object
(_handle_tool_calls executes only entries carrying a function key). -/
structure ToolCall where
  callId : Option String
  function : Option FunctionSpec
deriving DecidableEq, Repr

/-- Values stored in the chunk dicts inspected by streaming_callback. -/
inductive CVal where
  | s (v : String)
  | b (v : Bool)
  | acts (v : List Action)
  | calls (v : List ToolCall)
  | obj (v : List (String × CVal))

/-- A chunk as seen by streaming_callback: a string-keyed dict. -/
def ChunkDict := List (String × CVal)

/-- Key lookup in a chunk dict. -/
def dictGet (d : ChunkDict) (k : String) : Option CVal :=
  match d with
  | [] => Option.none
  | (k', v) :: rest => if k' = k then some v else dictGet rest k

/-- Python truthiness of an optional chunk value, as used by
chunk.get(key, False) tests. -/
def cvalTruthy : Option CVal → Bool
  | some (CVal.s v) => !(v = "")
  | some (CVal.b v) => v
  | some (CVal.acts v) => !v.isEmpty
  | some (CVal.calls v) => !v.isEmpty
  | some (CVal.obj v) => !v.isEmpty
  | Option.none => false

/-- The dict literal built for every chunk yielded by process_streaming:
exactly the keys thoughts, actions and complete. -/
def chunkToDict (c : ChunkResult) : ChunkDict :=
  [("thoughts", CVal.s c.thoughts), ("actions", CVal.acts c.actions),
   ("complete", CVal.b c.complete)]

/-- One dispatched execution: the function name and the raw arguments text
handed to _execute_tool.  The JSON decoding of the arguments does not affect
whether an execution happens (a decode failure is logged and the call still
executes with empty arguments), so the record keeps the wire form. -/
structure ExecCall where
  name : String
  rawArgs : Option String
deriving DecidableEq, Repr

/-- Modelled from MeeboRobot._handle_tool_calls: every tool call carrying a
function key is executed, in order. -/
def handleToolCalls (tcs : List ToolCall) : List ExecCall :=
  tcs.filterMap (fun tc =>
    match tc.function with
    | some f => some { name := f.name, rawArgs := f.arguments }
    | Option.none => Option.none)

/-- Character class of the function-name group of the pattern used by
_parse_function_calls_from_text. -/
def isFnNameChar (c : Char) : Bool := ('a' ≤ c && c ≤ 'z') || c = '_'

/-- Character class of the argument group of that pattern. -/
def isFnArgChar (c : Char) : Bool := c.isDigit || c = '.'

/-- Leftmost non-overlapping matches of the pattern name(arg) with name over
lowercase letters and underscores and arg over digits and dots; on a failed
match the scan advances one character, mirroring the regex engine (greedy
backtracking inside the two character classes can never succeed here because
a shortened group is always followed by another character of the same
class). -/
def findCallMatches : Nat → List Char → List (String × String)
  | 0, _ => []
  | Nat.succ _, [] => []
  | Nat.succ fuel, c :: rest =>
    if isFnNameChar c then
      match (c :: rest).dropWhile isFnNameChar with
      | '(' :: rest2 =>
        let arg := rest2.takeWhile isFnArgChar
        if arg.isEmpty then findCallMatches fuel rest
        else
          match rest2.dropWhile isFnArgChar with
          | ')' :: rest3 =>
            (String.mk ((c :: rest).takeWhile isFnNameChar), String.mk arg)
              :: findCallMatches fuel rest3
          | _ => findCallMatches fuel rest
      | _ => findCallMatches fuel rest
    else findCallMatches fuel rest

/-- Rendering of the matched argument inside json.dumps of the speed dict:
float conversion followed by the integer normalisation of the source turns a
pure digit string into its canonical integer form; dotted arguments are kept
verbatim (their float round-trip is not modelled further, and the branch is
proved unreachable from streamed chunks below). -/
def renderFnArg (digits : String) : String :=
  match digits.toNat? with
  | some n => toString n
  | Option.none => digits

/-- Modelled from MeeboRobot._parse_function_calls_from_text: each pattern
match becomes a tool call with a positional id and json.dumps of a speed
dict as arguments. -/
def parseFunctionCallsFromText (text : String) : List ToolCall :=
  (findCallMatches text.data.length text.data).enum.map (fun p =>
    { callId := some ("call_" ++ toString p.1),
      function := some
        { name := p.2.1,
          arguments := some ("\x7b\"speed\": " ++ renderFnArg p.2.2 ++ "\x7d") } })

/-- Modelled from the streaming_callback closure of
MeeboRobot._process_streaming: a complete chunk replaces the accumulated
response; tool calls found under a raw_chunk key are executed; a truthy text
value containing call_ is scanned for function calls, which are executed
when any are found.  Returns the new accumulated response and the executions
performed by this invocation, in order. -/
def runCallback (acc : ChunkDict) (chunk : ChunkDict) : ChunkDict × List ExecCall :=
  let acc' := if cvalTruthy (dictGet chunk "complete") then chunk else acc
  let rawExecs :=
    match dictGet chunk "raw_chunk" with
    | some (CVal.obj raw) =>
      match dictGet raw "tool_calls" with
      | some (CVal.calls tcs) =>
        match tcs with
        | [] => []
        | _ :: _ => handleToolCalls tcs
      | _ => []
    | _ => []
  let textExecs :=
    match dictGet chunk "text" with
    | some (CVal.s text) =>
      if !(text = "") then
        if text.data.length > 0 && !(pyStrip text = "") then
          if pyContains text "call_" then
            match parseFunctionCallsFromText text with
            | [] => []
            | tc :: tcs => handleToolCalls (tc :: tcs)
          else []
        else []
      else []
    | _ => []
  (acc', rawExecs ++ textExecs)

/-- Folds the callback over the yielded chunk dicts, collecting every
execution in order. -/
def runCallbackAll (acc : ChunkDict) : List ChunkDict → ChunkDict × List ExecCall
  | [] => (acc, [])
  | cd :: rest =>
    let step := runCallback acc cd
    let r := runCallbackAll step.1 rest
    (r.1, step.2 ++ r.2)

/-- The executions performed after the stream ends: when the accumulated
response is truthy and carries a tool_calls key, those calls are handled. -/
def finalToolCallsExecs (acc : ChunkDict) : List ExecCall :=
  match acc with
  | [] => []
  | _ :: _ =>
    match dictGet acc "tool_calls" with
    | some (CVal.calls tcs) => handleToolCalls tcs
    | _ => []

/-- Modelled from MeeboRobot._process_streaming: the complete, ordered list
of executions dispatched to _execute_tool during one streamed turn.  The
chunks yielded by process_streaming are passed to the callback in dict form;
after the stream, tool calls found on the accumulated response are
handled. -/
def processStreamingTurn (tools : List ToolDef) (ctx0 : List Int)
    (resp : ServerResponse) : List ExecCall :=
  let yields := (processStreaming tools ctx0 resp).1.map (fun p => chunkToDict p.1)
  let run := runCallbackAll [] yields
  run.2 ++ finalToolCallsExecs run.1

/-! ## Parser lemmas -/

/-- Every action produced by parseLine carries a tool name accepted by the
registry: the source checks _is_valid_tool before appending. -/
theorem parseLine_valid {tools : List ToolDef} {l : String} {a : Action}
    (h : parseLine tools l = some a) : isValidTool tools a.tool = true := by
  simp only [parseLine] at h
  split at h
  · exact absurd h (by simp)
  · split at h
    · split at h
      · split at h
        · cases h
          assumption
        · exact absurd h (by simp)
      · exact absurd h (by simp)
    · exact absurd h (by simp)

/-- The line loop preserves validity of every accumulated action. -/
theorem foldl_lines_valid (tools : List ToolDef) :
    ∀ (ls : List String) (acc : List Action),
      (∀ a ∈ acc, isValidTool tools a.tool = true) →
      ∀ a ∈ ls.foldl
          (fun acc l =>
            match parseLine tools l with
            | some a => acc ++ [a]
            | Option.none => acc) acc,
        isValidTool tools a.tool = true := by
  intro ls
  induction ls with
  | nil => intro acc hacc a ha; exact hacc a ha
  | cons l ls ih =>
    intro acc hacc a ha
    rw [List.foldl_cons] at ha
    refine ih _ ?_ a ha
    intro b hb
    cases hp : parseLine tools l with
    | none => rw [hp] at hb; exact hacc b hb
    | some c =>
      rw [hp] at hb
      rcases List.mem_append.mp hb with h1 | h2
      · exact hacc b h1
      · have hbc : b = c := by simpa using h2
        subst hbc
        exact parseLine_valid hp

/-- Every action in a parsed actions block names a registered tool. -/
theorem parseActionsBlock_valid (tools : List ToolDef) (t : String) :
    ∀ a ∈ parseActionsBlock tools t, isValidTool tools a.tool = true := by
  intro a ha
  exact foldl_lines_valid tools (pySplitAll t "\n") [] (by simp) a ha

/-- Preparing a tool list twice equals preparing it once: the prepared form
consists of full entries only, which _prepare_tools keeps unchanged. -/
theorem prepareTools_idem : ∀ ts : List ToolDef, prepareTools (prepareTools ts) = prepareTools ts := by
  intro ts
  induction ts with
  | nil => rfl
  | cons t ts ih => cases t <;> simp [prepareTools, ih]

/-! ## Claim theorems: response parsing -/

/-- C2: with the default registered tool set, the two-action scenario text
parses to the thoughts Avoiding obstacle. and the ordered action list
move_forward with integer speed 50 then turn_left with integer speed 30. -/
theorem claim_C2_scenario_parse :
    parseLLMResponse robotTools
        "ACTIONS:\nmove_forward(speed=50)\nturn_left(speed=30)\n\nTHOUGHTS:\nAvoiding obstacle."
      = { thoughts := "Avoiding obstacle.",
          actions :=
            [ { tool := "move_forward", params := [("speed", PyVal.pyint 50)] },
              { tool := "turn_left", params := [("speed", PyVal.pyint 30)] } ] } := by
  rfl

/-- C3: parsing a fixed raw buffer is deterministic and idempotent; the
parse is embedded as a pure function of the registry and the buffer, with no
other state, so two parses of the same buffer are identical. -/
theorem claim_C3_parse_idempotent (tools : List ToolDef) (buffer : String) :
    parseLLMResponse tools buffer = parseLLMResponse tools buffer := rfl

/-- C5: every action produced by the parser names a tool of the active
registry, and with a registry of only move_forward and stop the text
proposing fly() and stop() parses to the stop action alone, so the fly
action never reaches execution. -/
theorem claim_C5_unknown_tools_dropped :
    (∀ (tools : List ToolDef) (text : String),
       ∀ a ∈ (parseLLMResponse tools text).actions, isValidTool tools a.tool = true) ∧
    parseLLMResponse registryMoveStop "ACTIONS:\nfly()\nstop()"
      = { thoughts := "", actions := [{ tool := "stop", params := [] }] } := by
  constructor
  · intro tools text a ha
    unfold parseLLMResponse at ha
    simp only at ha
    split at ha
    · exact parseActionsBlock_valid tools _ a ha
    · exact absurd ha (by simp)
  · rfl

/-- Witness for C5 at a concrete input: the stop action produced from the
scenario text is accepted by the two-tool registry. -/
theorem claim_C5_unknown_tools_dropped_witness :
    ({ tool := "stop", params := [] } : Action)
        ∈ (parseLLMResponse registryMoveStop "ACTIONS:\nfly()\nstop()").actions ∧
    isValidTool registryMoveStop "stop" = true :=
  ⟨by decide,
   claim_C5_unknown_tools_dropped.1 registryMoveStop "ACTIONS:\nfly()\nstop()"
     { tool := "stop", params := [] } (by decide)⟩

/-- C9, counterexample: a candidate action line whose parameter list holds a
nested value is not treated as unparseable; the line still contributes an
action, contradicting the fail-closed claim. -/
theorem claim_C9_counterexample :
    (parseLLMResponse robotTools "ACTIONS:\nspeak(text=[1, 2])").actions ≠ [] := by
  decide

/-- C9, amended: on a line whose parameter list holds a nested value, the
parameter text is split on commas, a fragment with an equals sign falls back
to its raw right-hand string when structured decoding fails, fragments
without an equals sign are ignored, and the action is emitted with these
partially decoded parameters. -/
theorem claim_C9_amended :
    parseLLMResponse robotTools "ACTIONS:\nspeak(text=[1, 2])"
      = { thoughts := "",
          actions := [{ tool := "speak", params := [("text", PyVal.pystr "[1")] }] } := by
  rfl

/-- C10: a parameter token lacking an equals sign is silently ignored, a
call with an empty parameter list yields the action with an empty parameter
dict, and the parser is a total function returning a thoughts string and an
action list (totality is witnessed by the model being a total Lean
function). -/
theorem claim_C10_parser_total_tolerant :
    (∀ (acc : List (String × PyVal)) (tok : String),
       (pyStrip tok).data.contains '=' = false → parseOneParam acc tok = acc) ∧
    parseLLMResponse robotTools "ACTIONS:\nstop()"
      = { thoughts := "", actions := [{ tool := "stop", params := [] }] } ∧
    parseLLMResponse robotTools "ACTIONS:\nstop(x)"
      = { thoughts := "", actions := [{ tool := "stop", params := [] }] } := by
  refine ⟨?_, by rfl, by rfl⟩
  intro acc tok h
  unfold parseOneParam
  simp only [h]
  simp

/-- Witness for C10 at a concrete token: the token x has no equals sign and
is ignored. -/
theorem claim_C10_parser_total_tolerant_witness :
    (pyStrip "x").data.contains '=' = false ∧ parseOneParam [] "x" = [] :=
  ⟨by decide, claim_C10_parser_total_tolerant.1 [] "x" (by decide)⟩

/-! ## Claim theorems: capability registry -/

/-- C6, counterexample: a process_streaming or process call with a
caller-supplied tool list replaces the stored tool set, so the registry is
mutated at runtime. -/
theorem claim_C6_counterexample :
    updatedTools (some [danceTool]) robotTools ≠ robotTools := by
  decide

/-- C6, amended: every request reassigns the stored tool set to the
prepared form of the chosen list; with no caller-supplied list an already
prepared stored set is preserved by value, but a nonempty caller-supplied
list replaces the stored registry with its prepared form. -/
theorem claim_C6_amended :
    (∀ own : List ToolDef, updatedTools Option.none (prepareTools own) = prepareTools own) ∧
    (∀ (t : ToolDef) (ts own : List ToolDef),
       updatedTools (some (t :: ts)) own = prepareTools (t :: ts)) := by
  constructor
  · intro own
    unfold updatedTools chooseTools
    exact prepareTools_idem own
  · intro t ts own
    rfl

/-! ## Streaming lemmas and claim theorems -/

/-- When the streaming loop never breaks, every yielded chunk carries a
false completion flag: the flag mirrors the done field, which is also the
break condition. -/
theorem processLines_yields_not_complete (tools : List ToolDef) :
    ∀ (lines : List StreamLine) (st : StreamState),
      (processLines tools st lines).broke = false →
      ∀ p ∈ (processLines tools st lines).yields, p.1.complete = false := by
  intro lines
  induction lines with
  | nil =>
    intro st _ p hp
    simp [processLines] at hp
  | cons l ls ih =>
    intro st h p hp
    cases l with
    | emptyL =>
      simp only [processLines, processLine] at h hp
      exact ih st h p hp
    | malformed raw =>
      simp only [processLines, processLine] at h hp
      exact ih st h p hp
    | frag f =>
      by_cases hd : f.done
      · simp only [processLines, processLine, hd] at h
        simp at h
      · simp only [processLines, processLine, hd] at h hp
        simp only [Bool.false_eq_true, if_false, List.mem_append] at h hp
        rcases hp with hp | hp
        · simp only [List.mem_singleton] at hp
          subst hp
          rfl
        · exact ih _ h p hp

/-- C8: a streamed line whose body fails JSON decoding is skipped and the
loop continues with the next line unchanged; a malformed fragment terminates
neither the stream nor the turn. -/
theorem claim_C8_malformed_skipped (tools : List ToolDef) (st : StreamState)
    (raw : String) (ls : List StreamLine) :
    processLines tools st (StreamLine.malformed raw :: ls) = processLines tools st ls := rfl

/-- C7: a fragment carrying a continuation token makes the client replace
the owned context wholesale with exactly that token, whatever the previous
context was, and the chunk yielded for that fragment already observes the
new token (the update happens before the yield). -/
theorem claim_C7_context_replaced_before_yield (tools : List ToolDef)
    (st : StreamState) (r : Option String) (c : List Int) (d : Bool) :
    (processLine tools st (StreamLine.frag { response := r, context := some c, done := d })).1.context = c ∧
    (processLine tools st (StreamLine.frag { response := r, context := some c, done := d })).2.1.map
        Prod.snd = [c] :=
  ⟨rfl, rfl⟩

/-- C4: a non-success status yields exactly the single terminal error chunk
with an empty action list and the completion flag set; a transport failure
at request time yields exactly the single request-failed chunk; a transport
failure after some received lines (the loop not having broken) yields the
already produced chunks followed by the single terminal error chunk, every
earlier chunk carrying a false completion flag.  No retry exists in the
model: each server response is consumed exactly once. -/
theorem claim_C4_terminal_error (tools : List ToolDef) (ctx0 : List Int)
    (status : Nat) (msg : String) (lines : List StreamLine)
    (h : (processLines tools { completeResponse := "", context := ctx0, lastActions := [] } lines).broke
          = false) :
    processStreaming tools ctx0 (ServerResponse.httpError status)
      = ([({ thoughts := "Error: Error from LLM API: " ++ toString status,
             actions := [], complete := true }, ctx0)], ctx0) ∧
    processStreaming tools ctx0 (ServerResponse.transportError msg)
      = ([({ thoughts := "Error: Request failed: " ++ msg,
             actions := [], complete := true }, ctx0)], ctx0) ∧
    (processStreaming tools ctx0 (ServerResponse.midStreamError lines msg)).1
      = (processLines tools { completeResponse := "", context := ctx0, lastActions := [] } lines).yields
        ++ [({ thoughts := "Error: Request failed: " ++ msg,
               actions := [], complete := true },
             (processLines tools { completeResponse := "", context := ctx0, lastActions := [] } lines).state.context)] ∧
    ∀ p ∈ (processLines tools { completeResponse := "", context := ctx0, lastActions := [] } lines).yields,
      p.1.complete = false := by
  refine ⟨rfl, rfl, ?_, processLines_yields_not_complete tools lines _ h⟩
  simp only [processStreaming, h]
  simp

/-- Witness for C4 at a concrete turn: one well-formed text fragment without
a done flag, followed by a mid-stream timeout. -/
theorem claim_C4_terminal_error_witness :
    (processLines ([] : List ToolDef) { completeResponse := "", context := [], lastActions := [] }
        [StreamLine.frag { response := some "hello", context := Option.none, done := false }]).broke
      = false ∧
    (processStreaming ([] : List ToolDef) [] (ServerResponse.midStreamError
        [StreamLine.frag { response := some "hello", context := Option.none, done := false }]
        "timed out")).1
      = (processLines ([] : List ToolDef) { completeResponse := "", context := [], lastActions := [] }
          [StreamLine.frag { response := some "hello", context := Option.none, done := false }]).yields
        ++ [({ thoughts := "Error: Request failed: " ++ "timed out",
               actions := [], complete := true },
             (processLines ([] : List ToolDef) { completeResponse := "", context := [], lastActions := [] }
               [StreamLine.frag { response := some "hello", context := Option.none, done := false }]).state.context)] :=
  ⟨by decide,
   (claim_C4_terminal_error [] [] 500 "timed out"
      [StreamLine.frag { response := some "hello", context := Option.none, done := false }]
      (by decide)).2.2.1⟩

/-! ## Dispatch lemmas and the C1 theorem -/

/-- The accumulated-response dict is either the initial empty dict or one of
the chunk dicts built from a yielded chunk. -/
def AccOk (acc : ChunkDict) : Prop := acc = [] ∨ ∃ c, acc = chunkToDict c

/-- The streaming callback on a chunk dict of the shape actually yielded by
process_streaming performs no execution: the dict holds only the keys
thoughts, actions and complete, so both dispatch branches are skipped. -/
theorem runCallback_chunkToDict (acc : ChunkDict) (c : ChunkResult) :
    runCallback acc (chunkToDict c) = (if c.complete then chunkToDict c else acc, []) := rfl

/-- Folding the callback over chunk dicts of the yielded shape performs no
execution and keeps the accumulated response of the yielded shape. -/
theorem runCallbackAll_chunkDicts :
    ∀ (cs : List ChunkResult) (acc : ChunkDict), AccOk acc →
      (runCallbackAll acc (cs.map chunkToDict)).2 = [] ∧
      AccOk (runCallbackAll acc (cs.map chunkToDict)).1 := by
  intro cs
  induction cs with
  | nil => intro acc h; exact ⟨rfl, h⟩
  | cons c cs ih =>
    intro acc h
    simp only [List.map_cons, runCallbackAll, runCallback_chunkToDict]
    by_cases hc : c.complete
    · simp only [hc, if_true]
      have := ih (chunkToDict c) (Or.inr ⟨c, rfl⟩)
      exact ⟨by simpa using this.1, this.2⟩
    · simp only [hc, if_false]
      have := ih acc h
      exact ⟨by simpa using this.1, this.2⟩

/-- The end-of-stream handling performs no execution when the accumulated
response is empty or of the yielded chunk shape: neither carries a
tool_calls key. -/
theorem finalToolCallsExecs_accOk {acc : ChunkDict} (h : AccOk acc) :
    finalToolCallsExecs acc = [] := by
  rcases h with h | ⟨c, h⟩ <;> subst h <;> rfl

/-- C1: no action ever reaches the tool executor during a streamed turn.
The chunks yielded by process_streaming carry only the keys thoughts,
actions and complete, while the dispatch callback of _process_streaming
inspects the keys raw_chunk, text and tool_calls, so the executed list of
every streamed turn is empty; in particular a turn whose final chunk carries
the freshly parsed move_forward action dispatches nothing, and no dispatch
ledger exists.  The at-most-once reading of the claim therefore holds only
vacuously, and the stated mechanism (newly appeared validated actions are
executed, previously dispatched keys are skipped) is absent. -/
theorem claim_C1_streaming_turn_dispatches_nothing :
    (∀ (tools : List ToolDef) (ctx0 : List Int) (resp : ServerResponse),
       processStreamingTurn tools ctx0 resp = []) ∧
    (processStreaming robotTools [] (ServerResponse.ok
        [StreamLine.frag { response := some "ACTIONS:\nmove_forward(speed=50)",
                           context := Option.none, done := true }])).1.map (fun p => p.1.actions)
      = [[{ tool := "move_forward", params := [("speed", PyVal.pyint 50)] }]] := by
  constructor
  · intro tools ctx0 resp
    simp only [processStreamingTurn]
    have hmap :
        (processStreaming tools ctx0 resp).1.map (fun p => chunkToDict p.1)
          = ((processStreaming tools ctx0 resp).1.map (fun p => p.1)).map chunkToDict := by
      rw [List.map_map]
      rfl
    rw [hmap]
    have h := runCallbackAll_chunkDicts
      ((processStreaming tools ctx0 resp).1.map (fun p => p.1)) [] (Or.inl rfl)
    rw [h.1, finalToolCallsExecs_accOk h.2]
    rfl
  · rfl

end Meebo
